import Mathlib

/-!
Shallow embedding of the streaming frame pipeline of `toolchest`
(`src/tts_engine.py`, `src/tts_mlx.py`, `src/url_to_wav.py`, `src/config.py`),
together with theorems checking the natural-language specification's claims
about it.

Modelling conventions:
* PCM samples are rationals (`ℚ`); raw generation-step outputs are lists of
  integer tokens (`List ℤ`), as in the mlx token frames.
* `queue.Queue` is a FIFO list, front at the head; `put_nowait` appends at the
  back, `get_nowait` takes the head.
* The external `mimi.decode_step` audio tokenizer is an opaque parameter
  `decode : Raw → Frame` (resp. `Raw → Except ε Frame` where its possible
  failure matters).
* NumPy elementwise operations are mapped over lists; the NumPy broadcasting
  rule for 1-D assignment `outdata[:, 0] = pcm` is modelled explicitly
  (`npAssignColumn`): lengths must agree, or the source must have length 1.
-/

namespace Toolchest

/-- One PCM sample (`src/config.py` uses float audio; modelled as `ℚ`). -/
abbrev Sample := ℚ

/-- One decoded block of PCM samples (one generation step). -/
abbrev Frame := List Sample

/-- One raw generation-step output: a block of integer tokens. -/
abbrev Raw := List ℤ

/-! ### `src/config.py` — `AudioConfig` -/

def AUDIO_CLIP_MIN : ℚ := -1

def AUDIO_CLIP_MAX : ℚ := 1

def DEFAULT_BLOCKSIZE : ℕ := 1920

def DEFAULT_CHANNELS : ℕ := 1

def INITIAL_PLAYBACK_DELAY : ℕ := 3

def LOOP_PLAYBACK_DELAY : ℕ := 1

/-! ### FrameQueue — `queue.Queue` as used by the pipeline -/

/-- `queue.Queue` holding decoded frames: FIFO list, head = front. -/
abbrev FrameQueue := List Frame

/-- `q.put_nowait(f)`: enqueue at the back (unbounded queue, never blocks). -/
def put_nowait (q : FrameQueue) (f : Frame) : FrameQueue := q ++ [f]

/-- `q.get_nowait()` / `q.get(block=False)`: `some` head and the rest, or
`none` (the `queue.Empty` exception) when the queue is empty. -/
def get_nowait (q : FrameQueue) : Option Frame × FrameQueue :=
  match q with
  | [] => (none, [])
  | f :: rest => (some f, rest)

/-! ### `src/tts_engine.py` — `TTSEngine._on_frame` and friends -/

/-- `(frame == -1).any()`: true iff some token of the raw step equals the
sentinel `-1`. -/
def anySentinel (r : Raw) : Bool := r.any (fun t => t == -1)

/-- `mx.clip(x, AUDIO_CLIP_MIN, AUDIO_CLIP_MAX)` on one sample. -/
def clip (x : Sample) : Sample := max AUDIO_CLIP_MIN (min AUDIO_CLIP_MAX x)

/-- Elementwise clip of a decoded PCM block. -/
def clipFrame (f : Frame) : Frame := f.map clip

/-- `TTSEngine._on_frame` (src/tts_engine.py lines 106–111): skip the step when
any token equals `-1`; otherwise decode, clip, and enqueue.  `decode` stands
for `self.tts_model.mimi.decode_step` followed by extracting channel `[0, 0]`.
`custom_on_frame` in src/tts_mlx.py lines 84–90 performs the same computation
(its `np.clip` after `np.array` equals `mx.clip` before it). -/
def on_frame (decode : Raw → Frame) (q : FrameQueue) (r : Raw) : FrameQueue :=
  if anySentinel r then q
  else put_nowait q (clipFrame (decode r))

/-- The generation loop's successive `on_frame` callbacks over a list of raw
step outputs. -/
def runSteps (decode : Raw → Frame) (q : FrameQueue) (steps : List Raw) :
    FrameQueue :=
  steps.foldl (on_frame decode) q

/-- `TTSEngine.get_audio_frames` (src/tts_engine.py lines 152–159): repeated
`get_nowait` until the queue raises `queue.Empty`; returns the popped frames
together with the queue state left behind. -/
def get_audio_frames : FrameQueue → List Frame × FrameQueue
  | [] => ([], [])
  | f :: q' =>
      let rest := get_audio_frames q'
      (f :: rest.1, rest.2)

/-- Engine state: the only mutable field the claims concern is the frame
queue `self.wav_frames`. -/
structure EngineState where
  wav_frames : FrameQueue

/-- `TTSEngine.generate_audio` (src/tts_engine.py lines 113–143) with the
default callback: installs a fresh empty `queue.Queue` as `self.wav_frames`
before starting inference, then the generation loop feeds every raw step to
`_on_frame`. -/
def generate_audio (decode : Raw → Frame) (st : EngineState)
    (steps : List Raw) : EngineState :=
  let st1 : EngineState := { st with wav_frames := [] }
  { st1 with wav_frames := runSteps decode st1.wav_frames steps }

/-! ### Decode failure (for claim C8): `_on_frame` with a fallible decoder -/

/-- `_on_frame` when `decode_step` may raise: the source has no `try`/`except`
around the decode, so a decoder exception propagates out of `_on_frame`
(`Except.error`); no frame is enqueued for that step. -/
def on_frameE {ε : Type} (decode : Raw → Except ε Frame) (q : FrameQueue)
    (r : Raw) : Except ε FrameQueue :=
  if anySentinel r then Except.ok q
  else
    match decode r with
    | Except.ok pcm => Except.ok (put_nowait q (clipFrame pcm))
    | Except.error e => Except.error e

/-- The generation loop with a fallible decoder: a propagating exception
aborts the loop at the failing step.  Returns the queue as it stands at that
moment together with the exception, if any (in Python the queue object
survives the exception, so earlier frames remain enqueued). -/
def runStepsE {ε : Type} (decode : Raw → Except ε Frame) (q : FrameQueue) :
    List Raw → FrameQueue × Option ε
  | [] => (q, none)
  | r :: rs =>
      match on_frameE decode q r with
      | Except.ok q' => runStepsE decode q' rs
      | Except.error e => (q, some e)

/-! ### `src/tts_mlx.py` — real-time playback path -/

/-- NumPy broadcast failure for `outdata[:, 0] = pcm_data`. -/
inductive NpError where
  | broadcastMismatch (srcLen dstLen : ℕ)
  deriving DecidableEq, Repr

/-- `outdata[:, 0] = pcm_data` for a 1-channel buffer of length `buflen`:
NumPy assigns when the lengths agree, broadcasts a length-1 source across the
whole column, and otherwise raises a broadcast `ValueError`. -/
def npAssignColumn (buflen : ℕ) (pcm : List Sample) :
    Except NpError (List Sample) :=
  if pcm.length = buflen then Except.ok pcm
  else
    match pcm with
    | [x] => Except.ok (List.replicate buflen x)
    | _ => Except.error (NpError.broadcastMismatch pcm.length buflen)

/-- `audio_callback` (src/tts_mlx.py lines 92–97): try a non-blocking pop;
on `queue.Empty` fill the buffer with zeros (`outdata[:] = 0`); otherwise
assign the popped frame into the buffer column.  Returns the buffer contents
(or the escaping NumPy error) and the queue state after the call. -/
def audio_callback (buflen : ℕ) (q : FrameQueue) :
    Except NpError (List Sample) × FrameQueue :=
  match get_nowait q with
  | (none, q') => (Except.ok (List.replicate buflen 0), q')
  | (some f, q') => (npAssignColumn buflen f, q')

/-- The real-time controller's observable events
(src/tts_mlx.py lines 99–110). -/
inductive RTEvent where
  | openStream
  | generateAudio
  | sleepSec (n : ℕ)
  | pollQsize (n : ℕ)
  | closeStream
  deriving DecidableEq, Repr

/-- The drain-polling loop of `main` (`while True: if qsize == 0: break;
time.sleep(1)`), driven by the successive queue sizes it observes; the event
list stops at the `break` (the trailing `closeStream` is appended by
`mainRealtime`).  An exhausted observation list means the loop is still
running. -/
def pollEvents : List ℕ → List RTEvent
  | [] => []
  | n :: rest =>
      RTEvent.pollQsize n ::
        (if n = 0 then []
         else RTEvent.sleepSec LOOP_PLAYBACK_DELAY :: pollEvents rest)

/-- Whether the polling loop reaches its `break` (and hence the stream close)
within the observed queue sizes. -/
def loopCloses : List ℕ → Bool
  | [] => false
  | n :: rest => if n = 0 then true else loopCloses rest

/-- The event trace of `main`'s real-time branch (src/tts_mlx.py lines
99–110): the `with sd.OutputStream(...)` opens the stream, then the body runs
`generate_audio`, sleeps `INITIAL_PLAYBACK_DELAY`, polls, and the `with`
exit closes the stream. -/
def mainRealtime (qsizes : List ℕ) : List RTEvent :=
  RTEvent.openStream :: RTEvent.generateAudio ::
    RTEvent.sleepSec INITIAL_PLAYBACK_DELAY ::
      (pollEvents qsizes ++ if loopCloses qsizes then [RTEvent.closeStream] else [])

/-! ### `src/url_to_wav.py` — file-writing pipeline tail -/

/-- Outcome of `convert_url_to_wav` after generation (lines 74–105): either
the failure return (`return False`, nothing written) or a written WAV carrying
the concatenated samples and the sample rate. -/
inductive ConvertResult where
  | failure
  | written (samples : List Sample) (sampleRate : ℕ)
  deriving DecidableEq, Repr

/-- The tail of `convert_url_to_wav` (src/url_to_wav.py lines 77–105): drain
the engine's frames; if none were produced, report failure and write no file;
otherwise concatenate (`np.concatenate(frames)`) and write at the engine's
sample rate (`sf.write(output_path, audio, engine.sample_rate)`). -/
def convert_tail (frames : List Frame) (sampleRate : ℕ) : ConvertResult :=
  if frames.isEmpty then ConvertResult.failure
  else ConvertResult.written frames.flatten sampleRate

/-- The whole file path for one utterance: generate on a fresh engine, drain,
then write (or fail). -/
def convert_pipeline (decode : Raw → Frame) (steps : List Raw)
    (sampleRate : ℕ) : ConvertResult :=
  let st := generate_audio decode ⟨[]⟩ steps
  let frames := (get_audio_frames st.wav_frames).1
  convert_tail frames sampleRate

/-! ## Helper lemmas -/

/-- Pushing a list of frames in order via `put_nowait` appends it. -/
lemma foldl_put_nowait (q : FrameQueue) (fs : List Frame) :
    fs.foldl put_nowait q = q ++ fs := by
  induction fs generalizing q with
  | nil => simp
  | cons f fs ih => simp [put_nowait, ih]

/-- Draining returns the whole queue content in order and empties the queue. -/
lemma get_audio_frames_spec (q : FrameQueue) : get_audio_frames q = (q, []) := by
  induction q with
  | nil => rfl
  | cons f q ih => simp [get_audio_frames, ih]

/-- The generation loop enqueues exactly the clipped decodes of the
non-sentinel steps, in order, after whatever was already queued. -/
lemma runSteps_eq (decode : Raw → Frame) (q : FrameQueue) (steps : List Raw) :
    runSteps decode q steps
      = q ++ (steps.filter (fun r => !anySentinel r)).map
          (fun r => clipFrame (decode r)) := by
  induction steps generalizing q with
  | nil => simp [runSteps]
  | cons r rs ih =>
      show runSteps decode (on_frame decode q r) rs = _
      by_cases h : anySentinel r
      · simp [on_frame, h, ih]
      · simp [on_frame, h, ih, put_nowait]

/-- Every clipped sample lies in the configured clip interval. -/
lemma clip_bounds (x : Sample) :
    AUDIO_CLIP_MIN ≤ clip x ∧ clip x ≤ AUDIO_CLIP_MAX := by
  unfold clip AUDIO_CLIP_MIN AUDIO_CLIP_MAX
  constructor
  · exact le_max_left _ _
  · exact max_le (by norm_num) (min_le_left _ _)

/-- The drain-polling loop of `main` observes a queue size of zero exactly
when it reaches its `break`. -/
lemma loopCloses_iff (qsizes : List ℕ) :
    loopCloses qsizes = true ↔ 0 ∈ qsizes := by
  induction qsizes with
  | nil => simp [loopCloses]
  | cons n rest ih =>
      by_cases h : n = 0
      · subst h; simp [loopCloses]
      · simp [loopCloses, h, ih, Ne.symm h]

/-- The polling loop itself never emits the stream-close event. -/
lemma closeStream_not_mem_pollEvents (qsizes : List ℕ) :
    RTEvent.closeStream ∉ pollEvents qsizes := by
  induction qsizes with
  | nil => simp [pollEvents]
  | cons n rest ih =>
      by_cases h : n = 0 <;> simp [pollEvents, h, ih]

/-! ## Claims -/

/-- C1: a raw generation step is decoded, clipped and enqueued by `_on_frame`
if and only if none of its values equals the sentinel `-1`; in particular an
EndMarker-shaped raw output (nonempty, all values `-1`) is skipped, and the
drained frame sequence consists exactly of the clipped decodes of the
non-sentinel steps. -/
theorem on_frame_sentinel_filter (decode : Raw → Frame) (steps : List Raw) :
    (∀ r : Raw, anySentinel r = false ↔ ∀ t ∈ r, t ≠ -1)
    ∧ (∀ (q : FrameQueue) (r : Raw), anySentinel r = false →
        on_frame decode q r = put_nowait q (clipFrame (decode r)))
    ∧ (∀ (q : FrameQueue) (r : Raw), anySentinel r = true →
        on_frame decode q r = q)
    ∧ (∀ r : Raw, r ≠ [] → (∀ t ∈ r, t = -1) → anySentinel r = true)
    ∧ (get_audio_frames (runSteps decode [] steps)).1
        = (steps.filter (fun r => !anySentinel r)).map
            (fun r => clipFrame (decode r)) := by
  refine ⟨?_, ?_, ?_, ?_, ?_⟩
  · intro r
    simp [anySentinel]
  · intro q r h
    simp [on_frame, h]
  · intro q r h
    simp [on_frame, h]
  · intro r hne hall
    cases r with
    | nil => exact absurd rfl hne
    | cons t ts =>
        have ht : t = -1 := hall t (by simp)
        simp [anySentinel, ht]
  · rw [runSteps_eq, get_audio_frames_spec]
    simp

/-- Witness for C1 at a concrete decoder and step list: the all-`-1` raw
output is detected as sentinel, and the drained sequence holds only the
non-sentinel step's clipped decode. -/
theorem on_frame_sentinel_filter_witness :
    (([-1, -1] : Raw) ≠ [] ∧ (∀ t ∈ ([-1, -1] : Raw), t = -1)
      ∧ anySentinel [-1, -1] = true)
    ∧ (get_audio_frames
          (runSteps (fun _ => ([2, 0] : Frame)) [] [[-1, -1], [5, 6]])).1
        = ([[-1, -1], [5, 6]].filter (fun r => !anySentinel r)).map
            (fun r => clipFrame ((fun _ => ([2, 0] : Frame)) r)) :=
  ⟨⟨by decide, by decide,
    (on_frame_sentinel_filter (fun _ => ([2, 0] : Frame)) []).2.2.2.1
      [-1, -1] (by decide) (by decide)⟩,
   (on_frame_sentinel_filter (fun _ => ([2, 0] : Frame))
      [[-1, -1], [5, 6]]).2.2.2.2⟩

/-- C3: pushing N frames in order and then draining the queue the way
`get_audio_frames` does returns exactly those frames in order, each once,
and leaves the queue empty. -/
theorem fifo_push_drain (fs : List Frame) :
    get_audio_frames (fs.foldl put_nowait []) = (fs, []) := by
  rw [foldl_put_nowait, get_audio_frames_spec]
  simp

/-- C4: the producer's clamp maps any sample below `-1` to `-1`, any sample
above `1` to `1`, leaves samples inside `[-1, 1]` unchanged, is idempotent,
and consequently every sample of every enqueued frame lies in `[-1, 1]`. -/
theorem clip_spec (x : Sample) (decode : Raw → Frame) (steps : List Raw) :
    (x < AUDIO_CLIP_MIN → clip x = AUDIO_CLIP_MIN)
    ∧ (AUDIO_CLIP_MAX < x → clip x = AUDIO_CLIP_MAX)
    ∧ (AUDIO_CLIP_MIN ≤ x → x ≤ AUDIO_CLIP_MAX → clip x = x)
    ∧ clip (clip x) = clip x
    ∧ (∀ f ∈ runSteps decode [] steps, ∀ y ∈ f,
        AUDIO_CLIP_MIN ≤ y ∧ y ≤ AUDIO_CLIP_MAX) := by
  refine ⟨?_, ?_, ?_, ?_, ?_⟩
  · intro h
    unfold clip AUDIO_CLIP_MIN AUDIO_CLIP_MAX at *
    rw [min_eq_right (by linarith), max_eq_left (by linarith)]
  · intro h
    unfold clip AUDIO_CLIP_MIN AUDIO_CLIP_MAX at *
    rw [min_eq_left (by linarith), max_eq_right (by norm_num)]
  · intro h1 h2
    unfold clip AUDIO_CLIP_MIN AUDIO_CLIP_MAX at *
    rw [min_eq_right h2, max_eq_right h1]
  · rcases clip_bounds x with ⟨h1, h2⟩
    unfold clip AUDIO_CLIP_MIN AUDIO_CLIP_MAX at *
    rw [min_eq_right h2, max_eq_right h1]
  · intro f hf y hy
    rw [runSteps_eq] at hf
    simp only [List.nil_append, List.mem_map] at hf
    obtain ⟨r, _, rfl⟩ := hf
    simp only [clipFrame, List.mem_map] at hy
    obtain ⟨z, _, rfl⟩ := hy
    exact clip_bounds z

/-- Witness for C4: `2` clamps to the upper boundary, `1/2` is unchanged,
and the frame enqueued for a non-sentinel step has its samples in range. -/
theorem clip_spec_witness :
    (AUDIO_CLIP_MAX < (2 : ℚ) ∧ clip 2 = AUDIO_CLIP_MAX)
    ∧ (AUDIO_CLIP_MIN ≤ (1 : ℚ)/2 ∧ (1 : ℚ)/2 ≤ AUDIO_CLIP_MAX
        ∧ clip (1/2) = 1/2)
    ∧ (clipFrame [2, 0] ∈ runSteps (fun _ => ([2, 0] : Frame)) [] [[5]]
        ∧ (1 : ℚ) ∈ clipFrame [2, 0]
        ∧ AUDIO_CLIP_MIN ≤ (1 : ℚ) ∧ (1 : ℚ) ≤ AUDIO_CLIP_MAX) :=
  ⟨⟨by norm_num [AUDIO_CLIP_MAX],
    (clip_spec 2 (fun _ => ([2, 0] : Frame)) []).2.1
      (by norm_num [AUDIO_CLIP_MAX])⟩,
   ⟨by norm_num [AUDIO_CLIP_MIN], by norm_num [AUDIO_CLIP_MAX],
    (clip_spec ((1 : ℚ)/2) (fun _ => ([2, 0] : Frame)) []).2.2.1
      (by norm_num [AUDIO_CLIP_MIN]) (by norm_num [AUDIO_CLIP_MAX])⟩,
   ⟨by decide, by decide,
    (clip_spec 0 (fun _ => ([2, 0] : Frame)) [[5]]).2.2.2.2
      (clipFrame [2, 0]) (by decide) 1 (by decide)⟩⟩

/-- C5: a fill callback on an empty queue writes silence (all zeros) over the
whole buffer, raises nothing, and leaves the queue empty — so any number of
consecutive calls before the first push behave identically. -/
theorem audio_callback_underrun (buflen : ℕ) :
    audio_callback buflen [] = (Except.ok (List.replicate buflen 0), []) := by
  simp [audio_callback, get_nowait]

/-- C2 counterexample: a popped frame of 2 samples against a 3-slot buffer is
not copied-and-padded with silence — the NumPy column assignment raises a
broadcast error. -/
theorem audio_callback_short_frame_raises :
    (audio_callback 3 [[(5 : ℚ), 7]]).1
        = Except.error (NpError.broadcastMismatch 2 3)
    ∧ (audio_callback 3 [[(5 : ℚ), 7]]).1 ≠ Except.ok [5, 7, 0] := by
  have he : (audio_callback 3 [[(5 : ℚ), 7]]).1
      = Except.error (NpError.broadcastMismatch 2 3) := rfl
  refine ⟨he, ?_⟩
  rw [he]
  simp

/-- C2 amended: when the popped frame's sample count equals the buffer
length, the buffer holds exactly the frame's samples; when it differs (and is
not the broadcastable length 1), the assignment raises a broadcast error
instead of padding with silence. -/
theorem audio_callback_assign_spec (buflen : ℕ) (f : Frame) (q : FrameQueue) :
    (f.length = buflen →
        audio_callback buflen (f :: q) = (Except.ok f, q))
    ∧ (f.length ≠ buflen → f.length ≠ 1 →
        audio_callback buflen (f :: q)
          = (Except.error (NpError.broadcastMismatch f.length buflen), q)) := by
  constructor
  · intro h
    simp [audio_callback, get_nowait, npAssignColumn, h]
  · intro h1 h2
    rcases f with _ | ⟨x, _ | ⟨y, rest⟩⟩ <;>
      simp_all [audio_callback, get_nowait, npAssignColumn]

/-- Witness for the amended C2: an equal-length frame fills the buffer
exactly; a strictly shorter frame (length 2 into 3 slots) raises. -/
theorem audio_callback_assign_spec_witness :
    (([5, 7] : Frame).length = 2
      ∧ audio_callback 2 [[(5 : ℚ), 7]] = (Except.ok [5, 7], []))
    ∧ (([5, 7] : Frame).length ≠ 3 ∧ ([5, 7] : Frame).length ≠ 1
      ∧ audio_callback 3 [[(5 : ℚ), 7]]
          = (Except.error (NpError.broadcastMismatch 2 3), [])) :=
  ⟨⟨by decide, (audio_callback_assign_spec 2 [5, 7] []).1 (by decide)⟩,
   ⟨by decide, by decide,
    (audio_callback_assign_spec 3 [5, 7] []).2 (by decide) (by decide)⟩⟩

/-- C6: when every generation step is sentinel-shaped, so that zero
non-EndMarker frames are produced, the conversion pipeline reports failure
and writes no file. -/
theorem convert_empty_failure (decode : Raw → Frame) (steps : List Raw)
    (sr : ℕ) (h : ∀ r ∈ steps, anySentinel r = true) :
    convert_pipeline decode steps sr = ConvertResult.failure := by
  have hpipe : convert_pipeline decode steps sr
      = convert_tail ((get_audio_frames (runSteps decode [] steps)).1) sr :=
    rfl
  have hfilter : steps.filter (fun r => !anySentinel r) = [] := by
    induction steps with
    | nil => rfl
    | cons r rs ih => simp_all [List.filter_cons]
  rw [hpipe, runSteps_eq, get_audio_frames_spec, hfilter]
  rfl

/-- Witness for C6: a run whose only step is the EndMarker-shaped raw output
yields the failure result. -/
theorem convert_empty_failure_witness :
    (∀ r ∈ [([-1, -1] : Raw)], anySentinel r = true)
    ∧ convert_pipeline (fun _ => ([2, 0] : Frame)) [[-1, -1]] 24000
        = ConvertResult.failure :=
  ⟨by decide,
   convert_empty_failure (fun _ => ([2, 0] : Frame)) [[-1, -1]] 24000
     (by decide)⟩

/-- C7: on a nonempty frame list the file sink writes the concatenation of
all frames in order with no gaps at the given sample rate, and the written
sample count is the sum of the frame lengths. -/
theorem file_sink_concat (frames : List Frame) (sr : ℕ) (h : frames ≠ []) :
    convert_tail frames sr = ConvertResult.written frames.flatten sr
    ∧ frames.flatten.length = (frames.map List.length).sum := by
  constructor
  · simp [convert_tail, h]
  · induction frames with
    | nil => simp
    | cons f fs ih => simp_all

/-- Witness for C7, the spec's scenario: 10 frames of 480 samples each are
written as exactly 4800 samples. -/
theorem file_sink_concat_witness :
    (List.replicate 10 (List.replicate 480 (0 : ℚ)) ≠ [])
    ∧ (convert_tail (List.replicate 10 (List.replicate 480 (0 : ℚ))) 24000
        = ConvertResult.written
            (List.replicate 10 (List.replicate 480 (0 : ℚ))).flatten 24000
      ∧ (List.replicate 10 (List.replicate 480 (0 : ℚ))).flatten.length
          = ((List.replicate 10 (List.replicate 480 (0 : ℚ))).map
              List.length).sum)
    ∧ (List.replicate 10 (List.replicate 480 (0 : ℚ))).flatten.length
        = 4800 := by
  have hne : List.replicate 10 (List.replicate 480 (0 : ℚ)) ≠ [] := by
    intro hcon
    have hl := congrArg List.length hcon
    rw [List.length_replicate] at hl
    simp at hl
  refine ⟨hne,
    file_sink_concat (List.replicate 10 (List.replicate 480 (0 : ℚ))) 24000
      hne, ?_⟩
  rw [List.length_flatten, List.map_replicate, List.length_replicate,
      List.sum_replicate, smul_eq_mul]

/-- A concrete fallible decoder for the C8 counterexample: fails exactly on
the raw step `[2]`. -/
def badDecode : Raw → Except Unit Frame := fun r =>
  if r = [2] then Except.error () else Except.ok [(1 : ℚ)/2]

/-- C8 counterexample: when decoding step `[2]` fails, the exception escapes
`_on_frame` and aborts the loop — the subsequent step `[3]` is never decoded
or enqueued (running `[3]` alone would have enqueued its frame). -/
theorem on_frame_decode_failure_aborts :
    runStepsE badDecode [] [[2], [3]] = ([], some ())
    ∧ runStepsE badDecode [] [[3]]
        = ([clipFrame [(1 : ℚ)/2]], none) := by
  constructor
  · rfl
  · rfl

/-- C8 amended: a decode failure at a non-sentinel step propagates uncaught
out of `_on_frame` and aborts the generation loop at that step — no frame is
emitted for the failing step, no later step runs, and the queue keeps exactly
the frames enqueued before the failure. -/
theorem on_frame_decode_failure_spec {ε : Type} (decode : Raw → Except ε Frame)
    (q : FrameQueue) (r : Raw) (rs : List Raw) (e : ε)
    (h1 : anySentinel r = false) (h2 : decode r = Except.error e) :
    runStepsE decode q (r :: rs) = (q, some e) := by
  simp [runStepsE, on_frameE, h1, h2]

/-- Witness for the amended C8: with a frame already enqueued, the failing
step `[2]` aborts the loop, keeping the queue as it was. -/
theorem on_frame_decode_failure_spec_witness :
    anySentinel [2] = false ∧ badDecode [2] = Except.error ()
    ∧ runStepsE badDecode [[(9 : ℚ)]] [[2], [3]] = ([[(9 : ℚ)]], some ()) :=
  ⟨by decide, by rfl,
   on_frame_decode_failure_spec badDecode [[(9 : ℚ)]] [2] [[3]] ()
     (by decide) (by rfl)⟩

/-- C9 counterexample: in the real-time branch's event trace the stream-open
event strictly precedes the generation call — the stream is not opened "only
after generation has begun producing frames". -/
theorem mainRealtime_opens_before_generate :
    mainRealtime [0]
      = [RTEvent.openStream, RTEvent.generateAudio, RTEvent.sleepSec 3,
         RTEvent.pollQsize 0, RTEvent.closeStream]
    ∧ List.indexOf RTEvent.openStream (mainRealtime [0])
        < List.indexOf RTEvent.generateAudio (mainRealtime [0]) := by
  constructor
  · rfl
  · decide

/-- C9 amended: the controller opens the stream first, then runs generation
inside the open stream, then sleeps the warm-up delay; polling a nonzero
queue size is followed by the fixed one-second sleep and further polling, and
the stream-close event occurs exactly when some polled queue size is zero —
never while the polled queue still holds frames. -/
theorem mainRealtime_spec (qsizes : List ℕ) :
    (mainRealtime qsizes).take 3
      = [RTEvent.openStream, RTEvent.generateAudio,
         RTEvent.sleepSec INITIAL_PLAYBACK_DELAY]
    ∧ (∀ (n : ℕ) (rest : List ℕ), n ≠ 0 → pollEvents (n :: rest)
        = RTEvent.pollQsize n :: RTEvent.sleepSec LOOP_PLAYBACK_DELAY ::
            pollEvents rest)
    ∧ (RTEvent.closeStream ∈ mainRealtime qsizes ↔ 0 ∈ qsizes)
    ∧ ((0 : ℕ) ∉ qsizes → RTEvent.closeStream ∉ mainRealtime qsizes) := by
  have hmem : RTEvent.closeStream ∈ mainRealtime qsizes ↔ 0 ∈ qsizes := by
    by_cases h : loopCloses qsizes
    · have h0 : 0 ∈ qsizes := (loopCloses_iff qsizes).1 h
      simp [mainRealtime, h, h0]
    · have h0 : 0 ∉ qsizes := fun hc =>
        h ((loopCloses_iff qsizes).2 hc)
      simp [mainRealtime, h, h0, closeStream_not_mem_pollEvents]
  refine ⟨rfl, ?_, hmem, fun h0 => fun hc => h0 (hmem.1 hc)⟩
  intro n rest hn
  simp [pollEvents, hn]

/-- Witness for the amended C9: with only nonzero queue sizes observed, the
close event is absent, and a nonzero poll is followed by the one-second
sleep. -/
theorem mainRealtime_spec_witness :
    ((0 : ℕ) ∉ [2, 1] ∧ RTEvent.closeStream ∉ mainRealtime [2, 1])
    ∧ ((2 : ℕ) ≠ 0 ∧ pollEvents [2]
        = RTEvent.pollQsize 2 :: RTEvent.sleepSec LOOP_PLAYBACK_DELAY ::
            pollEvents []) :=
  ⟨⟨by decide, (mainRealtime_spec [2, 1]).2.2.2 (by decide)⟩,
   ⟨by decide, (mainRealtime_spec [2, 1]).2.1 2 [] (by decide)⟩⟩

/-- C10: `generate_audio` installs a fresh empty queue before inference, so
its resulting queue holds exactly the clipped decodes of this call's
non-sentinel steps — whatever undrained frames the previous state held, the
drained result is the same as from a pristine engine. -/
theorem generate_audio_fresh_queue (decode : Raw → Frame) (st : EngineState)
    (steps : List Raw) :
    (generate_audio decode st steps).wav_frames
      = (steps.filter (fun r => !anySentinel r)).map
          (fun r => clipFrame (decode r))
    ∧ (get_audio_frames (generate_audio decode st steps).wav_frames).1
      = (get_audio_frames
          (generate_audio decode ⟨[]⟩ steps).wav_frames).1 := by
  have hq : (generate_audio decode st steps).wav_frames
      = runSteps decode [] steps := rfl
  constructor
  · rw [hq, runSteps_eq]
    simp
  · rfl

end Toolchest
